import Mathlib

/-!
# SEXP library interface (`include/sexp/sexp.h`)

A shallow embedding of the classes declared in `sexp.h` and the properties
their inline member functions satisfy.

Conventions of the embedding:

* an octet (`typedef unsigned char octet`) is a natural number; the narrowing
  cast `(octet) x` is `x % 256`;
* a `size_t` value is a natural number; arithmetic on the length of a string
  is exact, and its conversion to `uint32_t` is `uint32`, reduction modulo
  `2 ^ 32` (the result is the same when `size_t` itself has 32 bits);
* an `int` is an integer in the 32-bit two's complement range; the conversion
  of a wider value to `int` is `int32`;
* a nullable pointer to an owned object is an `Option`;
* a member function that mutates its object and returns a value returns the
  pair of the value and the new object;
* a member function declared in the header without a body is either a
  parameter or a definition modelled from the specification, and says which.
-/

namespace sexp

/-! ## Machine integers -/

/-- Conversion of an unsigned value (a `size_t`) to `uint32_t`. -/
def uint32 (n : Nat) : Nat := n % 2 ^ 32

/-- Conversion of an integer value to `int`, 32 bits in two's complement. -/
def int32 (n : Int) : Int := (n + 2 ^ 31) % 2 ^ 32 - 2 ^ 31

/-! ## Simple strings -/

/-- The class `sexpSimpleString`, a `std::basic_string<octet>`: the sequence of
its octets. -/
structure sexpSimpleString where
  data : List Nat
deriving DecidableEq, Repr

namespace sexpSimpleString

/-- Member `length()` of `std::basic_string`: the number of octets, a `size_t`. -/
def length (s : sexpSimpleString) : Nat := s.data.length

/-- Source: `(*this) += (octet)(c & 0xFF); return *this;` for an `int c`. -/
def append (s : sexpSimpleString) (c : Int) : sexpSimpleString :=
  ⟨s.data ++ [Int.toNat (Int.land c 0xFF) % 256]⟩

/-- Source: `uint32_t advanced_length_token(void) const { return length(); }`. -/
def advanced_length_token (s : sexpSimpleString) : Nat :=
  uint32 s.length

/-- Source: `return (2 + 4 * ((length() + 2) / 3));` converted to `uint32_t`. -/
def advanced_length_base64 (s : sexpSimpleString) : Nat :=
  uint32 (2 + 4 * ((s.length + 2) / 3))

/-- Source: `return (1 + length() + 1);` converted to `uint32_t`. -/
def advanced_length_quoted (s : sexpSimpleString) : Nat :=
  uint32 (1 + s.length + 1)

/-- Source: `return (1 + 2 * length() + 1);` converted to `uint32_t`. -/
def advanced_length_hexadecimal (s : sexpSimpleString) : Nat :=
  uint32 (1 + 2 * s.length + 1)

end sexpSimpleString

/-! ## Character definitions -/

/-- The static members of the class `sexpCharDefs`: the ten 256-entry lookup
tables and the flag `initialized`. -/
structure sexpCharDefs where
  upper : Fin 256 → Int
  whitespace : Fin 256 → Bool
  decdigit : Fin 256 → Bool
  decvalue : Fin 256 → Int
  hexdigit : Fin 256 → Bool
  hexvalue : Fin 256 → Int
  base64digit : Fin 256 → Bool
  base64value : Fin 256 → Int
  tokenchar : Fin 256 → Bool
  alpha : Fin 256 → Bool
  initialized : Bool

/-- The constructor `sexpCharDefs(void)`, acting on the static members:
`if (!initialized) { initialize_character_tables(); initialized = true; }`.
The body of `initialize_character_tables` is not part of the header; it is the
parameter `init_tables`, an arbitrary update of the static members. -/
def sexpCharDefs.construct (init_tables : sexpCharDefs → sexpCharDefs)
    (st : sexpCharDefs) : sexpCharDefs :=
  if !st.initialized then
    { init_tables st with initialized := true }
  else
    st

/-! ## String nodes -/

/-- The data members of the class `sexpString`: two owned, nullable pointers to
simple strings. -/
structure sexpString where
  presentation_hint : Option sexpSimpleString
  string : Option sexpSimpleString
deriving DecidableEq, Repr

/-- The constructor `sexpString(void) : presentation_hint(NULL), string(NULL) {}`. -/
def sexpString.construct : sexpString :=
  { presentation_hint := none, string := none }

namespace sexpString

/-- Source: `get_string(void) const { return string; }`. -/
def get_string (s : sexpString) : Option sexpSimpleString := s.string

/-- Source: `set_string(sexpSimpleString *ss) { return string = ss; }`. -/
def set_string (s : sexpString) (ss : Option sexpSimpleString) :
    Option sexpSimpleString × sexpString :=
  (ss, { s with string := ss })

/-- Source: `get_presentation_hint(void) const { return presentation_hint; }`. -/
def get_presentation_hint (s : sexpString) : Option sexpSimpleString := s.presentation_hint

/-- Source: `set_presentation_hint(sexpSimpleString *ph) { return presentation_hint = ph; }`. -/
def set_presentation_hint (s : sexpString) (ph : Option sexpSimpleString) :
    Option sexpSimpleString × sexpString :=
  (ph, { s with presentation_hint := ph })

end sexpString

/-! ## Output stream -/

/-- The enumeration `sexpOutputStream::sexpPrintMode`. -/
inductive sexpPrintMode where
  | canonical
  | base64
  | advanced
deriving DecidableEq, Repr

/-- The data members of the class `sexpOutputStream`; `output_file` is the
sequence of bytes written to the sink so far. -/
structure sexpOutputStream where
  output_file : List Nat
  base64_count : Nat
  byte_size : Nat
  bits : Nat
  n_bits : Nat
  mode : sexpPrintMode
  column : Nat
  max_column : Nat
  indent : Nat
deriving DecidableEq, Repr

/-- The member functions of `sexpSimpleString` that print to an output stream.
They are declared in the header without a body; each is a parameter, an
arbitrary function of the string and the stream. -/
structure SimpleStringPrinters where
  print_canonical_verbatim : sexpSimpleString → sexpOutputStream → sexpOutputStream
  print_advanced : sexpSimpleString → sexpOutputStream → sexpOutputStream
  print_token : sexpSimpleString → sexpOutputStream → sexpOutputStream
  print_verbatim : sexpSimpleString → sexpOutputStream → sexpOutputStream
  print_quoted : sexpSimpleString → sexpOutputStream → sexpOutputStream
  print_hexadecimal : sexpSimpleString → sexpOutputStream → sexpOutputStream
  print_base64 : sexpSimpleString → sexpOutputStream → sexpOutputStream

namespace sexpOutputStream

/-- Source: `const uint32_t default_line_length = 75;`. -/
def default_line_length : Nat := 75

/-- Modelled from the spec: the constructor `sexpOutputStream(std::ostream *o)`,
declared without a body. §4.4 gives the maximum column its default, which is
the constant `default_line_length`, and the header documents that `indent`
starts at 0. Neither says what the other members start as: their initial
values are parameters. -/
def construct (o : List Nat) (base64_count byte_size bits n_bits : Nat)
    (mode : sexpPrintMode) (column : Nat) : sexpOutputStream :=
  { output_file := o
    base64_count := base64_count
    byte_size := byte_size
    bits := bits
    n_bits := n_bits
    mode := mode
    column := column
    max_column := default_line_length
    indent := 0 }

/-- Source: `print_canonical(const sexpSimpleString *ss)`, whose body is
`return ss->print_canonical_verbatim(this);`. -/
def print_canonical (p : SimpleStringPrinters) (os : sexpOutputStream)
    (ss : sexpSimpleString) : sexpOutputStream :=
  p.print_canonical_verbatim ss os

/-- Source: `print_advanced(const sexpSimpleString *ss)`, whose body is
`return ss->print_advanced(this);`. -/
def print_advanced (p : SimpleStringPrinters) (os : sexpOutputStream)
    (ss : sexpSimpleString) : sexpOutputStream :=
  p.print_advanced ss os

/-- Source: `get_byte_size(void) const { return byte_size; }`. -/
def get_byte_size (os : sexpOutputStream) : Nat := os.byte_size

/-- Source: `get_column(void) const { return column; }`. -/
def get_column (os : sexpOutputStream) : Nat := os.column

/-- Source: `reset_column(void) { return column = 0; }`. -/
def reset_column (os : sexpOutputStream) : Nat × sexpOutputStream :=
  (0, { os with column := 0 })

/-- Source: `get_max_column(void) const { return max_column; }`. -/
def get_max_column (os : sexpOutputStream) : Nat := os.max_column

/-- Source: `set_max_column(uint32_t mc) { return max_column = mc; }`; the
argument is converted to `uint32_t`. -/
def set_max_column (os : sexpOutputStream) (mc : Nat) : Nat × sexpOutputStream :=
  (uint32 mc, { os with max_column := uint32 mc })

/-- Source: `inc_indent(void) { ++indent; return this; }` on a `uint32_t`. -/
def inc_indent (os : sexpOutputStream) : sexpOutputStream :=
  { os with indent := uint32 (os.indent + 1) }

/-- Source: `dec_indent(void) { --indent; return this; }` on a `uint32_t`. -/
def dec_indent (os : sexpOutputStream) : sexpOutputStream :=
  { os with indent := uint32 (os.indent + (2 ^ 32 - 1)) }

end sexpOutputStream

/-! ## Object tree, canonical printing and scanning -/

/-- Modelled from the spec: the object tree of §3. The classes `sexpString`
and `sexpList` are declared in the header behind the abstract `sexpObject`, but
`print_canonical` and the scanner that builds the tree have no body there. A
string node owns its mandatory data and an optional presentation hint; a list
node owns an ordered sequence of nodes. -/
inductive sexpObject where
  | string (presentation_hint : Option sexpSimpleString) (data : sexpSimpleString)
  | list (elements : List sexpObject)

/-- Modelled from the spec: the digits of `decimal(L)`, missing with the body of
`print_decimal`. The recursion is bounded by `fuel`. -/
def print_decimal_digits : Nat → Nat → List Nat
  | 0, n => [48 + n % 10]
  | fuel + 1, n =>
    if n < 10 then [48 + n] else print_decimal_digits fuel (n / 10) ++ [48 + n % 10]

/-- Modelled from the spec: `decimal(L)`, the decimal digits of `n`, most
significant first. The header declares `print_decimal(uint32_t n)` without a
body: the argument is converted to `uint32_t`. -/
def print_decimal (n : Nat) : List Nat := print_decimal_digits (uint32 n) (uint32 n)

/-- Modelled from the spec: the bytes of the verbatim form of §4.2 and §4.4,
`decimal(L) ":" raw-bytes` (`print_canonical_verbatim`, declared without a
body). The length, a `size_t`, is passed to `print_decimal`. -/
def sexpSimpleString.print_canonical_verbatim (s : sexpSimpleString) : List Nat :=
  print_decimal s.length ++ [58] ++ s.data

mutual
/-- Modelled from the spec: canonical printing of §4.4, the bytes written by the
virtual `print_canonical`, which is declared without a body and to which
`sexpOutputStream::print_canonical(const sexpObject *)` forwards. A string
prints as its verbatim form, preceded by `"[" hint "]"` when a presentation
hint is present; a list prints as `"(" child₁ … childₙ ")"` with nothing
between the children. -/
def sexpObject.print_canonical : sexpObject → List Nat
  | .string none data => data.print_canonical_verbatim
  | .string (some hint) data =>
    [91] ++ hint.print_canonical_verbatim ++ [93] ++ data.print_canonical_verbatim
  | .list elements => [40] ++ print_canonical_elements elements ++ [41]
/-- Modelled from the spec: the children of a list, printed one after the
other. -/
def print_canonical_elements : List sexpObject → List Nat
  | [] => []
  | obj :: rest => obj.print_canonical ++ print_canonical_elements rest
end

mutual
/-- The trees all of whose strings, data and presentation hints, have a length
that an `int` holds: fewer than `2 ^ 31` octets each. -/
def sexpObject.lengths_fit_int : sexpObject → Bool
  | .string none data => decide (data.length < 2 ^ 31)
  | .string (some hint) data =>
    decide (hint.length < 2 ^ 31) && decide (data.length < 2 ^ 31)
  | .list elements => elements_lengths_fit_int elements
/-- The lists of trees all of whose strings have a length that an `int` holds. -/
def elements_lengths_fit_int : List sexpObject → Bool
  | [] => true
  | obj :: rest => obj.lengths_fit_int && elements_lengths_fit_int rest
end

/-- Modelled from the spec: the whitespace table of the character classifier
(`is_white_space`, declared without a body): space, tab, line feed, vertical
tab, form feed and carriage return. -/
def is_white_space (c : Nat) : Bool :=
  c == 32 || c == 9 || c == 10 || c == 11 || c == 12 || c == 13

/-- Modelled from the spec: the decimal-digit table (`is_dec_digit`, declared
without a body; the header documents `decdigit[c]` as nonzero if `c` is a dec
digit): the characters `0` to `9`. -/
def is_dec_digit (c : Nat) : Bool :=
  decide (48 ≤ c) && decide (c ≤ 57)

/-- Modelled from the spec: `decvalue[c]`, documented in the header as the value
of `c` as a dec digit; the table is filled by the absent
`initialize_character_tables`. -/
def decvalue (c : Nat) : Nat := c - 48

/-- Modelled from the spec: the scan routines of §4.3 for the forms other than
the verbatim one, and the token-character table. §4.3 leaves their details
open; each is a parameter. A routine receives the decoded length (an `int` in
the header), when one precedes the string, and the unread input whose first
byte is the lookahead character; it returns the string and the input left
unread, or fails. -/
structure ScanRoutines where
  is_token_char : Nat → Bool
  scan_token : List Nat → Option (sexpSimpleString × List Nat)
  scan_quoted_string : Option Int → List Nat → Option (sexpSimpleString × List Nat)
  scan_hexadecimal_string : Option Int → List Nat → Option (sexpSimpleString × List Nat)
  scan_base64_string : Option Int → List Nat → Option (sexpSimpleString × List Nat)

namespace sexpInputStream

/-- Modelled from the spec: `skip_white_space` advances the lookahead past
whitespace. The decoder is in 8-bit mode; its state is the unread input, whose
first byte is the lookahead character. -/
def skip_white_space : List Nat → List Nat
  | [] => []
  | c :: rest => if is_white_space c then skip_white_space rest else c :: rest

/-- Modelled from the spec: the loop of `scan_decimal_string`, which reads a run
of digits; `value` is the number read so far. -/
def scan_decimal_loop (value : Nat) : List Nat → Nat × List Nat
  | [] => (value, [])
  | c :: rest =>
    if is_dec_digit c then scan_decimal_loop (value * 10 + decvalue c) rest
    else (value, c :: rest)

/-- Modelled from the spec: `scan_decimal_string` reads a run of digits as the
length. The header declares the result as `int`: the number read is converted
to `int`. -/
def scan_decimal_string (input : List Nat) : Int × List Nat :=
  (int32 ((scan_decimal_loop 0 input).1 : Nat), (scan_decimal_loop 0 input).2)

/-- Modelled from the spec: `scan_verbatim_string`, entered with the lookahead
`:`, consumes it and then exactly `length` bytes; input that ends earlier is
an error. The header declares `int length`; a counted read of a negative
length reads no byte. -/
def scan_verbatim_string (length : Int) :
    List Nat → Option (sexpSimpleString × List Nat)
  | 58 :: rest =>
    if rest.length < length.toNat then none
    else some (⟨rest.take length.toNat⟩, rest.drop length.toNat)
  | _ => none

/-- Modelled from the spec: `scan_simple_string` dispatches on the lookahead. A
decimal digit starts a length, after which `:`, `"`, `#` or `|` selects the
form and anything else is an error; without a length, `"`, `#`, `|` or a token
character selects the form. -/
def scan_simple_string (r : ScanRoutines) :
    List Nat → Option (sexpSimpleString × List Nat)
  | [] => none
  | c :: rest =>
    if is_dec_digit c then
      match scan_decimal_string (c :: rest) with
      | (_, []) => none
      | (length, d :: rest1) =>
        if d = 58 then scan_verbatim_string length (d :: rest1)
        else if d = 34 then r.scan_quoted_string (some length) (d :: rest1)
        else if d = 35 then r.scan_hexadecimal_string (some length) (d :: rest1)
        else if d = 124 then r.scan_base64_string (some length) (d :: rest1)
        else none
    else if c = 34 then r.scan_quoted_string none (c :: rest)
    else if c = 35 then r.scan_hexadecimal_string none (c :: rest)
    else if c = 124 then r.scan_base64_string none (c :: rest)
    else if r.is_token_char c then r.scan_token (c :: rest)
    else none

/-- Modelled from the spec: `scan_string` first consumes a bracketed
presentation hint, `"[" simple-string "]"`, when the lookahead is `[`, then
the primary simple string, and returns a string node. -/
def scan_string (r : ScanRoutines) : List Nat → Option (sexpObject × List Nat)
  | [] => none
  | c :: rest =>
    if c = 91 then
      match scan_simple_string r rest with
      | none => none
      | some (hint, rest1) =>
        match rest1 with
        | [] => none
        | d :: rest2 =>
          if d = 93 then
            match scan_simple_string r rest2 with
            | none => none
            | some (data, rest3) => some (.string (some hint) data, rest3)
          else none
    else
      match scan_simple_string r (c :: rest) with
      | none => none
      | some (data, rest1) => some (.string none data, rest1)

mutual
/-- Modelled from the spec: `scan_object` skips whitespace and dispatches on
the lookahead: `(` starts a list; `[`, a decimal digit, `"`, `#`, `|` or a
token character starts a string; anything else, the end of input included, is
an error. `fuel` bounds the nesting of calls and loop iterations. -/
def scan_object_fuel (r : ScanRoutines) : Nat → List Nat → Option (sexpObject × List Nat)
  | 0, _ => none
  | fuel + 1, input =>
    match skip_white_space input with
    | [] => none
    | c :: rest =>
      if c = 40 then scan_list_fuel r fuel (c :: rest)
      else if c = 91 ∨ is_dec_digit c = true ∨ c = 34 ∨ c = 35 ∨ c = 124
          ∨ r.is_token_char c = true then
        scan_string r (c :: rest)
      else none
/-- Modelled from the spec: `scan_list` consumes `(` and scans the elements. -/
def scan_list_fuel (r : ScanRoutines) : Nat → List Nat → Option (sexpObject × List Nat)
  | 0, _ => none
  | fuel + 1, input =>
    match input with
    | [] => none
    | c :: rest => if c = 40 then scan_list_loop r fuel [] rest else none
/-- Modelled from the spec: the loop of `scan_list`. It skips whitespace; at `)`
it consumes it and returns the list node of the elements read; otherwise it
calls `scan_object` for the next element. The end of input before `)` is an
error. -/
def scan_list_loop (r : ScanRoutines) :
    Nat → List sexpObject → List Nat → Option (sexpObject × List Nat)
  | 0, _, _ => none
  | fuel + 1, elements, input =>
    match skip_white_space input with
    | [] => none
    | c :: rest =>
      if c = 41 then some (.list elements, rest)
      else
        match scan_object_fuel r fuel (c :: rest) with
        | none => none
        | some (obj, rest1) => scan_list_loop r fuel (elements ++ [obj]) rest1
end

/-- Modelled from the spec: `scan_object` on the unread input. The fuel is
`3 * n + 3` for an input of `n` bytes: a nested list takes three units and each
element of a list one. -/
def scan_object (r : ScanRoutines) (input : List Nat) : Option (sexpObject × List Nat) :=
  scan_object_fuel r (3 * input.length + 3) input

end sexpInputStream

/-! ## Theorems -/

/-! ### Machine arithmetic -/

/-- Clearing the bits of `m` in `0xFF` complements the low eight bits of `m`. -/
theorem ldiff_0xFF (m : Nat) : Nat.ldiff 255 m = 255 - m % 256 := by
  apply Nat.eq_of_testBit_eq
  intro i
  have h1 : (255 : Nat) = 2 ^ 8 - 1 := by norm_num
  have h2 : 255 - m % 256 = 2 ^ 8 - (m % 2 ^ 8 + 1) := by norm_num; omega
  have hlt : m % 2 ^ 8 < 2 ^ 8 := Nat.mod_lt _ (by norm_num)
  rw [Nat.testBit_ldiff, h2, Nat.testBit_two_pow_sub_succ hlt, h1, Nat.testBit_two_pow_sub_one,
    Nat.testBit_mod_two_pow]
  cases decide (i < 8) <;> simp

/-- Masking an `int` with `0xFF` yields its residue modulo 256, for negative
values (in two's complement) as well. -/
theorem land_0xFF (c : Int) : Int.land c 0xFF = c % 256 := by
  cases c with
  | ofNat m =>
    show ((Nat.land m 255 : Nat) : Int) = _
    have h : Nat.land m 255 = m % 256 := Nat.and_pow_two_sub_one_eq_mod m 8
    rw [h]; rfl
  | negSucc m =>
    show ((Nat.ldiff 255 m : Nat) : Int) = _
    rw [ldiff_0xFF]
    have h : (Int.negSucc m) % 256 = 255 - ((m % 256 : Nat) : Int) := by
      rw [Int.negSucc_emod]
      all_goals omega
    rw [h]
    omega

/-- The integer division `(L + 2) / 3` of the source is the ceiling of `L / 3`. -/
theorem add_two_div_three_eq_ceil (L : Nat) : (L + 2) / 3 = ⌈(L : ℚ) / 3⌉₊ := by
  apply le_antisymm
  · have h1 : (L : ℚ) / 3 ≤ (⌈(L : ℚ) / 3⌉₊ : ℚ) := Nat.le_ceil _
    rw [div_le_iff₀ (by norm_num)] at h1
    have h2 : L ≤ ⌈(L : ℚ) / 3⌉₊ * 3 := by exact_mod_cast h1
    omega
  · apply Nat.ceil_le.mpr
    rw [div_le_iff₀ (by norm_num)]
    have h : L ≤ (L + 2) / 3 * 3 := by omega
    exact_mod_cast h


/-! ### Decimal lengths -/

theorem is_dec_digit_add (d : Nat) (h : d < 10) : is_dec_digit (48 + d) = true := by
  simp [is_dec_digit]; omega

theorem print_decimal_digits_all (fuel n : Nat) :
    ∀ c ∈ print_decimal_digits fuel n, is_dec_digit c = true := by
  induction fuel generalizing n with
  | zero =>
    intro c hc
    simp only [print_decimal_digits, List.mem_singleton] at hc
    subst hc
    exact is_dec_digit_add _ (Nat.mod_lt _ (by norm_num))
  | succ f ih =>
    intro c hc
    unfold print_decimal_digits at hc
    split at hc
    · simp only [List.mem_singleton] at hc
      subst hc
      exact is_dec_digit_add _ (by assumption)
    · rcases List.mem_append.mp hc with h | h
      · exact ih _ c h
      · simp only [List.mem_singleton] at h
        subst h
        exact is_dec_digit_add _ (Nat.mod_lt _ (by norm_num))

theorem print_decimal_digits_ne_nil (fuel n : Nat) : print_decimal_digits fuel n ≠ [] := by
  cases fuel with
  | zero => simp [print_decimal_digits]
  | succ f =>
    unfold print_decimal_digits
    split <;> simp

/-- The number read from a run of digits, starting from `value`. -/
theorem scan_decimal_loop_append (ds rest : List Nat) (value : Nat)
    (hds : ∀ c ∈ ds, is_dec_digit c = true) :
    sexpInputStream.scan_decimal_loop value (ds ++ rest) =
      sexpInputStream.scan_decimal_loop
        (ds.foldl (fun v c => v * 10 + decvalue c) value) rest := by
  induction ds generalizing value with
  | nil => rfl
  | cons c cs ih =>
    have hc : is_dec_digit c = true := hds c (List.mem_cons_self _ _)
    simp only [List.cons_append, sexpInputStream.scan_decimal_loop, hc, if_true, List.foldl_cons]
    exact ih _ (fun x hx => hds x (List.mem_cons_of_mem _ hx))

theorem print_decimal_digits_value (fuel n : Nat) (h : n ≤ fuel) :
    (print_decimal_digits fuel n).foldl (fun v c => v * 10 + decvalue c) 0 = n := by
  induction fuel generalizing n with
  | zero =>
    have h0 : n = 0 := by omega
    subst h0
    simp [print_decimal_digits, decvalue]
  | succ f ih =>
    unfold print_decimal_digits
    split
    · simp [decvalue]
    · rw [List.foldl_append, ih (n / 10) (by omega)]
      simp only [List.foldl_cons, List.foldl_nil, decvalue]
      omega

theorem uint32_of_lt (n : Nat) (h : n < 2 ^ 32) : uint32 n = n :=
  Nat.mod_eq_of_lt h

theorem int32_of_lt (n : Nat) (h : n < 2 ^ 31) : int32 (n : Int) = (n : Int) := by
  unfold int32
  omega

/-- The number read back from a printed length is the length as `print_decimal`
received it, converted to `uint32_t`, and as `scan_decimal_string` returns it,
converted to `int`. -/
theorem scan_decimal_string_print_decimal (n : Nat) (rest : List Nat) :
    sexpInputStream.scan_decimal_string (print_decimal n ++ 58 :: rest)
      = (int32 ((uint32 n : Nat) : Int), 58 :: rest) := by
  have hloop : sexpInputStream.scan_decimal_loop 0 (print_decimal n ++ 58 :: rest)
      = (uint32 n, 58 :: rest) := by
    unfold print_decimal
    rw [scan_decimal_loop_append _ _ _ (print_decimal_digits_all (uint32 n) (uint32 n)),
      print_decimal_digits_value (uint32 n) (uint32 n) (le_refl _)]
    simp [sexpInputStream.scan_decimal_loop, is_dec_digit]
  unfold sexpInputStream.scan_decimal_string
  rw [hloop]

theorem print_decimal_head (n : Nat) :
    ∃ c cs, print_decimal n = c :: cs ∧ is_dec_digit c = true := by
  have hne := print_decimal_digits_ne_nil (uint32 n) (uint32 n)
  have hall := print_decimal_digits_all (uint32 n) (uint32 n)
  unfold print_decimal
  cases h : print_decimal_digits (uint32 n) (uint32 n) with
  | nil => exact absurd h hne
  | cons c cs =>
    refine ⟨c, cs, rfl, ?_⟩
    apply hall
    rw [h]
    exact List.mem_cons_self _ _

/-! ### Strings -/

/-- Scanning a printed length and the `:` after it hands the rest to
`scan_verbatim_string`, with the length narrowed to `uint32_t` by the printer
and to `int` by the scanner. -/
theorem scan_simple_string_print_decimal (r : ScanRoutines) (n : Nat) (rest : List Nat) :
    sexpInputStream.scan_simple_string r (print_decimal n ++ 58 :: rest)
      = sexpInputStream.scan_verbatim_string (int32 ((uint32 n : Nat) : Int)) (58 :: rest) := by
  obtain ⟨c, cs, hcs, hc⟩ := print_decimal_head n
  have hscan := scan_decimal_string_print_decimal n rest
  rw [hcs] at hscan ⊢
  simp only [List.cons_append] at hscan ⊢
  unfold sexpInputStream.scan_simple_string
  simp only [hc, if_true, hscan]

theorem scan_simple_string_verbatim (r : ScanRoutines) (s : sexpSimpleString)
    (rest : List Nat) (hfit : s.length < 2 ^ 31) :
    sexpInputStream.scan_simple_string r (s.print_canonical_verbatim ++ rest) = some (s, rest) := by
  unfold sexpSimpleString.print_canonical_verbatim
  have hshape : print_decimal s.length ++ [58] ++ s.data ++ rest
      = print_decimal s.length ++ 58 :: (s.data ++ rest) := by simp
  rw [hshape, scan_simple_string_print_decimal, uint32_of_lt _ (by omega),
    int32_of_lt _ hfit]
  simp only [sexpInputStream.scan_verbatim_string, Int.toNat_ofNat]
  have hlen : ¬ (s.data ++ rest).length < s.length := by
    simp [sexpSimpleString.length]
  simp only [hlen, if_false]
  simp [sexpSimpleString.length]

theorem verbatim_head (s : sexpSimpleString) :
    ∃ c cs, s.print_canonical_verbatim = c :: cs ∧ is_dec_digit c = true := by
  obtain ⟨c, cs, hcs, hc⟩ := print_decimal_head s.length
  refine ⟨c, cs ++ [58] ++ s.data, ?_, hc⟩
  simp [sexpSimpleString.print_canonical_verbatim, hcs]

theorem dec_digit_ne_bracket (c : Nat) (h : is_dec_digit c = true) : c ≠ 91 := by
  intro h91
  subst h91
  simp [is_dec_digit] at h

theorem scan_string_print_canonical (r : ScanRoutines) (hint : Option sexpSimpleString)
    (data : sexpSimpleString) (rest : List Nat)
    (hfit : (sexpObject.string hint data).lengths_fit_int = true) :
    sexpInputStream.scan_string r ((sexpObject.string hint data).print_canonical ++ rest)
      = some (.string hint data, rest) := by
  cases hint with
  | none =>
    simp only [sexpObject.lengths_fit_int, decide_eq_true_eq] at hfit
    obtain ⟨c, cs, hcs, hc⟩ := verbatim_head data
    have h := scan_simple_string_verbatim r data rest hfit
    simp only [sexpObject.print_canonical]
    rw [hcs] at h ⊢
    simp only [List.cons_append] at h ⊢
    unfold sexpInputStream.scan_string
    simp only [dec_digit_ne_bracket c hc, if_false, h]
  | some hint =>
    simp only [sexpObject.lengths_fit_int, Bool.and_eq_true, decide_eq_true_eq] at hfit
    have h1 := scan_simple_string_verbatim r hint
      (93 :: (data.print_canonical_verbatim ++ rest)) hfit.1
    have h2 := scan_simple_string_verbatim r data rest hfit.2
    have hshape : (sexpObject.string (some hint) data).print_canonical ++ rest
        = 91 :: (hint.print_canonical_verbatim
            ++ 93 :: (data.print_canonical_verbatim ++ rest)) := by
      simp [sexpObject.print_canonical]
    rw [hshape]
    unfold sexpInputStream.scan_string
    simp only [if_true, h1, h2]

/-- The first byte of a canonically printed object: `(`, `[` or a digit. -/
theorem print_canonical_head (obj : sexpObject) :
    ∃ c cs, obj.print_canonical = c :: cs ∧ (c = 40 ∨ c = 91 ∨ is_dec_digit c = true)
      ∧ 2 ≤ obj.print_canonical.length := by
  cases obj with
  | string hint data =>
    cases hint with
    | none =>
      obtain ⟨c, cs, hcs, hc⟩ := verbatim_head data
      refine ⟨c, cs, ?_, Or.inr (Or.inr hc), ?_⟩
      · simp [sexpObject.print_canonical, hcs]
      · obtain ⟨d, ds, hds, -⟩ := print_decimal_head data.length
        simp [sexpObject.print_canonical, sexpSimpleString.print_canonical_verbatim, hds]
        omega
    | some hint =>
      refine ⟨91, hint.print_canonical_verbatim ++ [93] ++ data.print_canonical_verbatim,
        ?_, Or.inr (Or.inl rfl), ?_⟩
      · simp [sexpObject.print_canonical]
      · simp [sexpObject.print_canonical]; omega
  | list elements =>
    refine ⟨40, print_canonical_elements elements ++ [41], ?_, Or.inl rfl, ?_⟩
    · simp [sexpObject.print_canonical]
    · simp [sexpObject.print_canonical]

/-- The first byte of a canonically printed string node: `[` or a digit. -/
theorem print_canonical_string_head (hint : Option sexpSimpleString) (data : sexpSimpleString) :
    ∃ c cs, (sexpObject.string hint data).print_canonical = c :: cs
      ∧ (c = 91 ∨ is_dec_digit c = true) := by
  cases hint with
  | none =>
    obtain ⟨c, cs, hcs, hc⟩ := verbatim_head data
    exact ⟨c, cs, by simp [sexpObject.print_canonical, hcs], Or.inr hc⟩
  | some hint =>
    exact ⟨91, hint.print_canonical_verbatim ++ [93] ++ data.print_canonical_verbatim,
      by simp [sexpObject.print_canonical], Or.inl rfl⟩

theorem dec_digit_ne_paren (c : Nat) (h : is_dec_digit c = true) : c ≠ 40 ∧ c ≠ 41 := by
  simp only [is_dec_digit, Bool.and_eq_true, decide_eq_true_eq] at h
  omega

theorem skip_white_space_head (c : Nat) (cs : List Nat)
    (h : c = 40 ∨ c = 41 ∨ c = 91 ∨ is_dec_digit c = true) :
    sexpInputStream.skip_white_space (c :: cs) = c :: cs := by
  have hw : is_white_space c = false := by
    rcases h with h | h | h | h
    · subst h; rfl
    · subst h; rfl
    · subst h; rfl
    · simp only [is_dec_digit, Bool.and_eq_true, decide_eq_true_eq] at h
      simp only [is_white_space, Bool.or_eq_false_iff, beq_eq_false_iff_ne, ne_eq]
      omega
  simp [sexpInputStream.skip_white_space, hw]

mutual
theorem scan_object_fuel_print (r : ScanRoutines) :
    ∀ (obj : sexpObject) (fuel : Nat) (rest : List Nat),
      obj.lengths_fit_int = true →
      3 * obj.print_canonical.length ≤ fuel →
      sexpInputStream.scan_object_fuel r fuel (obj.print_canonical ++ rest) = some (obj, rest)
  | .string hint data, fuel, rest, hfit, hfuel => by
    obtain ⟨c, cs, hcs, hc⟩ := print_canonical_string_head hint data
    obtain ⟨-, -, -, -, hlen⟩ := print_canonical_head (.string hint data)
    have hs := scan_string_print_canonical r hint data rest hfit
    obtain ⟨f, rfl⟩ : ∃ f, fuel = f + 1 := ⟨fuel - 1, by omega⟩
    rw [hcs] at hs ⊢
    simp only [List.cons_append] at hs ⊢
    have hws : sexpInputStream.skip_white_space (c :: (cs ++ rest)) = c :: (cs ++ rest) :=
      skip_white_space_head c _ (by tauto)
    have h40 : c ≠ 40 := by
      rcases hc with h | h
      · omega
      · exact (dec_digit_ne_paren c h).1
    have hsel : c = 91 ∨ is_dec_digit c = true ∨ c = 34 ∨ c = 35 ∨ c = 124
        ∨ r.is_token_char c = true := by tauto
    simp only [sexpInputStream.scan_object_fuel, hws, h40, if_false, hsel, if_true, hs]
  | .list elements, fuel, rest, hfit, hfuel => by
    simp only [sexpObject.lengths_fit_int] at hfit
    have hlen : (sexpObject.list elements).print_canonical.length
        = (print_canonical_elements elements).length + 2 := by
      simp [sexpObject.print_canonical]
    obtain ⟨f, rfl⟩ : ∃ f, fuel = f + 2 := ⟨fuel - 2, by omega⟩
    have hshape : (sexpObject.list elements).print_canonical ++ rest
        = 40 :: (print_canonical_elements elements ++ 41 :: rest) := by
      simp [sexpObject.print_canonical]
    have hws : sexpInputStream.skip_white_space
        (40 :: (print_canonical_elements elements ++ 41 :: rest))
        = 40 :: (print_canonical_elements elements ++ 41 :: rest) :=
      skip_white_space_head 40 _ (Or.inl rfl)
    have hloop := scan_list_loop_print r elements f [] rest hfit (by omega)
    rw [hshape]
    simp only [sexpInputStream.scan_object_fuel, hws, sexpInputStream.scan_list_fuel, if_true,
      hloop, List.nil_append]
theorem scan_list_loop_print (r : ScanRoutines) :
    ∀ (elements : List sexpObject) (fuel : Nat) (read : List sexpObject) (rest : List Nat),
      elements_lengths_fit_int elements = true →
      3 * (print_canonical_elements elements).length + 1 ≤ fuel →
      sexpInputStream.scan_list_loop r fuel read (print_canonical_elements elements ++ 41 :: rest)
        = some (.list (read ++ elements), rest)
  | [], fuel, read, rest, _, hfuel => by
    obtain ⟨f, rfl⟩ : ∃ f, fuel = f + 1 := ⟨fuel - 1, by omega⟩
    have hws : sexpInputStream.skip_white_space (41 :: rest) = 41 :: rest :=
      skip_white_space_head 41 _ (Or.inr (Or.inl rfl))
    simp only [print_canonical_elements, List.nil_append, sexpInputStream.scan_list_loop, hws,
      if_true, List.append_nil]
  | obj :: elements, fuel, read, rest, hfit, hfuel => by
    simp only [elements_lengths_fit_int, Bool.and_eq_true] at hfit
    obtain ⟨c, cs, hcs, hc, hlen⟩ := print_canonical_head obj
    have hlen2 : (print_canonical_elements (obj :: elements)).length
        = obj.print_canonical.length + (print_canonical_elements elements).length := by
      simp [print_canonical_elements]
    obtain ⟨f, rfl⟩ : ∃ f, fuel = f + 1 := ⟨fuel - 1, by omega⟩
    have h1 := scan_object_fuel_print r obj f
      (print_canonical_elements elements ++ 41 :: rest) hfit.1 (by omega)
    have h2 := scan_list_loop_print r elements f (read ++ [obj]) rest hfit.2 (by omega)
    have hshape : print_canonical_elements (obj :: elements) ++ 41 :: rest
        = c :: (cs ++ (print_canonical_elements elements ++ 41 :: rest)) := by
      simp [print_canonical_elements, hcs]
    rw [hcs] at h1
    simp only [List.cons_append] at h1
    have hws : sexpInputStream.skip_white_space
        (c :: (cs ++ (print_canonical_elements elements ++ 41 :: rest)))
        = c :: (cs ++ (print_canonical_elements elements ++ 41 :: rest)) :=
      skip_white_space_head c _ (by tauto)
    have h41 : c ≠ 41 := by
      rcases hc with h | h | h
      · omega
      · omega
      · exact (dec_digit_ne_paren c h).2
    rw [hshape]
    simp only [sexpInputStream.scan_list_loop, hws, h41, if_false, h1, h2, List.append_assoc,
      List.singleton_append]
end

/-- A canonically printed object whose string lengths fit an `int`, followed by
further input, is scanned back to the same object, leaving the further input
unread. -/
theorem scan_object_print_canonical_append (r : ScanRoutines) (obj : sexpObject)
    (rest : List Nat) (hfit : obj.lengths_fit_int = true) :
    sexpInputStream.scan_object r (obj.print_canonical ++ rest) = some (obj, rest) := by
  unfold sexpInputStream.scan_object
  apply scan_object_fuel_print _ _ _ _ hfit
  simp only [List.length_append]
  omega

/-- The canonical print of a string node without a hint. -/
theorem print_canonical_string_none (s : sexpSimpleString) :
    (sexpObject.string none s).print_canonical = print_decimal s.length ++ 58 :: s.data := by
  simp [sexpObject.print_canonical, sexpSimpleString.print_canonical_verbatim]

/-- With a length that is not positive, `scan_verbatim_string` consumes the `:`
and returns the empty string, leaving every octet after the `:` unread. -/
theorem scan_verbatim_string_nonpositive (length : Int) (data : List Nat)
    (h : length.toNat = 0) :
    sexpInputStream.scan_verbatim_string length (58 :: data)
      = some (sexpSimpleString.mk [], data) := by
  unfold sexpInputStream.scan_verbatim_string
  rw [h]
  simp only [Nat.not_lt_zero, if_false, List.take_zero, List.drop_zero]

/-- A string node without a hint whose length, narrowed to `uint32_t` and then
to `int`, is not positive prints as its length, `:` and its octets, and is
scanned back as the empty string, with all its octets left unread. -/
theorem scan_object_print_string_narrowed (r : ScanRoutines) (s : sexpSimpleString)
    (hnarrow : (int32 ((uint32 s.length : Nat) : Int)).toNat = 0) :
    sexpInputStream.scan_object r (sexpObject.string none s).print_canonical
      = some (sexpObject.string none (sexpSimpleString.mk []), s.data) := by
  obtain ⟨c, cs, hcs, hc⟩ := print_decimal_head s.length
  have hsimple := scan_simple_string_print_decimal r s.length s.data
  rw [scan_verbatim_string_nonpositive _ _ hnarrow] at hsimple
  clear hnarrow
  rw [print_canonical_string_none]
  rw [hcs] at hsimple ⊢
  simp only [List.cons_append] at hsimple ⊢
  have hws : sexpInputStream.skip_white_space (c :: (cs ++ 58 :: s.data))
      = c :: (cs ++ 58 :: s.data) :=
    skip_white_space_head c _ (Or.inr (Or.inr (Or.inr hc)))
  have hsel : c = 91 ∨ is_dec_digit c = true ∨ c = 34 ∨ c = 35 ∨ c = 124
      ∨ r.is_token_char c = true := Or.inr (Or.inl hc)
  have hfuel : 3 * (c :: (cs ++ 58 :: s.data)).length + 3
      = (3 * (c :: (cs ++ 58 :: s.data)).length + 2) + 1 := rfl
  unfold sexpInputStream.scan_object
  rw [hfuel]
  simp only [sexpInputStream.scan_object_fuel, hws, (dec_digit_ne_paren c hc).1, if_false,
    hsel, if_true]
  simp only [sexpInputStream.scan_string, dec_digit_ne_bracket c hc, if_false, hsimple]

/-! ### Properties of the interface -/

/-- C1, as stated, fails: the canonical print of a string node of `2 ^ 32` zero
octets begins with the length narrowed to `uint32_t`, `0:`, and `scan_object`
reads it back as the empty string, with the `2 ^ 32` octets left unread, not
as the node that was printed. -/
theorem canonical_round_trip_fails_long_string :
    (sexpObject.string none (sexpSimpleString.mk (List.replicate 4294967296 0))).print_canonical
      = 48 :: 58 :: List.replicate 4294967296 0
    ∧ sexpInputStream.scan_object
        (ScanRoutines.mk (fun _ => false) (fun _ => none) (fun _ _ => none) (fun _ _ => none)
          (fun _ _ => none))
        (sexpObject.string none
          (sexpSimpleString.mk (List.replicate 4294967296 0))).print_canonical
      = some (sexpObject.string none (sexpSimpleString.mk []), List.replicate 4294967296 0)
    ∧ sexpInputStream.scan_object
        (ScanRoutines.mk (fun _ => false) (fun _ => none) (fun _ _ => none) (fun _ _ => none)
          (fun _ _ => none))
        (sexpObject.string none
          (sexpSimpleString.mk (List.replicate 4294967296 0))).print_canonical
      ≠ some (sexpObject.string none (sexpSimpleString.mk (List.replicate 4294967296 0)), []) := by
  have hlen : (sexpSimpleString.mk (List.replicate 4294967296 0)).length = 4294967296 :=
    List.length_replicate 4294967296 0
  have hu : uint32 4294967296 = 0 := by
    unfold uint32
    norm_num
  have hnarrow : (int32 ((uint32 (sexpSimpleString.mk
      (List.replicate 4294967296 0)).length : Nat) : Int)).toNat = 0 := by
    rw [hlen, hu]
    unfold int32
    norm_num
  have hscan := scan_object_print_string_narrowed
    (ScanRoutines.mk (fun _ => false) (fun _ => none) (fun _ _ => none) (fun _ _ => none)
      (fun _ _ => none))
    (sexpSimpleString.mk (List.replicate 4294967296 0)) hnarrow
  refine ⟨?_, hscan, ?_⟩
  · have hzero : print_decimal 4294967296 = [48] := by
      unfold print_decimal
      rw [hu]
      rfl
    rw [print_canonical_string_none, hlen, hzero]
    rfl
  · rw [hscan]
    intro heq
    have hrest : List.replicate 4294967296 0 = ([] : List Nat) :=
      congrArg Prod.snd (Option.some.inj heq)
    have hzero := congrArg List.length hrest
    rw [List.length_replicate] at hzero
    exact absurd hzero (by norm_num)

/-- C1, amended: round-trip canonical identity for the trees whose strings, data
and presentation hints, are each shorter than `2 ^ 31` octets, the lengths an
`int` holds. For every such tree, scanning the bytes of its canonical print
with `scan_object` yields the same tree and consumes all the bytes, and
printing the scanned tree canonically again yields the same bytes. This holds
whatever the scan routines of the non-verbatim forms do. -/
theorem canonical_round_trip (r : ScanRoutines) (obj : sexpObject)
    (hfit : obj.lengths_fit_int = true) :
    sexpInputStream.scan_object r obj.print_canonical = some (obj, [])
    ∧ (sexpInputStream.scan_object r obj.print_canonical).map
        (fun scanned => scanned.1.print_canonical) = some obj.print_canonical := by
  have h := scan_object_print_canonical_append r obj [] hfit
  rw [List.append_nil] at h
  exact ⟨h, by rw [h]; rfl⟩

/-- Witness of C1: the list of a string with the hint `hi`, an empty list, and
a list holding the empty string. -/
theorem canonical_round_trip_witness :
    (sexpObject.list
      [sexpObject.string (some (sexpSimpleString.mk [104, 105]))
          (sexpSimpleString.mk [97, 98, 99, 32, 40, 41]),
        sexpObject.list [],
        sexpObject.list [sexpObject.string none (sexpSimpleString.mk [])]]).lengths_fit_int = true
    ∧ sexpInputStream.scan_object
        (ScanRoutines.mk (fun _ => false) (fun _ => none) (fun _ _ => none) (fun _ _ => none)
          (fun _ _ => none))
        (sexpObject.list
          [sexpObject.string (some (sexpSimpleString.mk [104, 105]))
              (sexpSimpleString.mk [97, 98, 99, 32, 40, 41]),
            sexpObject.list [],
            sexpObject.list [sexpObject.string none (sexpSimpleString.mk [])]]).print_canonical
      = some (sexpObject.list
          [sexpObject.string (some (sexpSimpleString.mk [104, 105]))
              (sexpSimpleString.mk [97, 98, 99, 32, 40, 41]),
            sexpObject.list [],
            sexpObject.list [sexpObject.string none (sexpSimpleString.mk [])]], []) :=
  ⟨by decide,
    (canonical_round_trip
      (ScanRoutines.mk (fun _ => false) (fun _ => none) (fun _ _ => none) (fun _ _ => none)
        (fun _ _ => none))
      (sexpObject.list
        [sexpObject.string (some (sexpSimpleString.mk [104, 105]))
            (sexpSimpleString.mk [97, 98, 99, 32, 40, 41]),
          sexpObject.list [],
          sexpObject.list [sexpObject.string none (sexpSimpleString.mk [])]])
      (by decide)).1⟩

/-- C2, as stated, fails: a string of 3221225470 octets has
`2 + 4 * ceil(L / 3) = 4294967298`, and `advanced_length_base64` returns 2. -/
theorem advanced_length_base64_wraps :
    (sexpSimpleString.mk (List.replicate 3221225470 0)).length = 3221225470
    ∧ (sexpSimpleString.mk (List.replicate 3221225470 0)).advanced_length_base64 = 2
    ∧ (sexpSimpleString.mk (List.replicate 3221225470 0)).advanced_length_base64
        ≠ 2 + 4 * ⌈(((sexpSimpleString.mk (List.replicate 3221225470 0)).length : ℕ) : ℚ) / 3⌉₊ := by
  have hlen : (sexpSimpleString.mk (List.replicate 3221225470 0)).length = 3221225470 := by
    simp only [sexpSimpleString.length, List.length_replicate]
  have hval : (sexpSimpleString.mk (List.replicate 3221225470 0)).advanced_length_base64 = 2 := by
    unfold sexpSimpleString.advanced_length_base64
    rw [hlen]
    unfold uint32
    norm_num
  refine ⟨hlen, hval, ?_⟩
  rw [hval, hlen, ← add_two_div_three_eq_ceil]
  norm_num

/-- C2, amended: for every simple string of length `L ≤ 3221225469`, that is
with `2 + 4 * ceil(L / 3) < 2 ^ 32`, `advanced_length_base64` returns exactly
`2 + 4 * ceil(L / 3)`, the integer division `(L + 2) / 3` being `ceil(L / 3)`;
it returns 2, 6, 6, 6, 90, 90 and 1338 for `L` = 0, 1, 2, 3, 64, 65 and 1000. -/
theorem advanced_length_base64_exact (s : sexpSimpleString) (h : s.length ≤ 3221225469) :
    (s.length + 2) / 3 = ⌈(s.length : ℚ) / 3⌉₊
    ∧ s.advanced_length_base64 = 2 + 4 * ⌈(s.length : ℚ) / 3⌉₊
    ∧ (s.length = 0 → s.advanced_length_base64 = 2)
    ∧ (s.length = 1 → s.advanced_length_base64 = 6)
    ∧ (s.length = 2 → s.advanced_length_base64 = 6)
    ∧ (s.length = 3 → s.advanced_length_base64 = 6)
    ∧ (s.length = 64 → s.advanced_length_base64 = 90)
    ∧ (s.length = 65 → s.advanced_length_base64 = 90)
    ∧ (s.length = 1000 → s.advanced_length_base64 = 1338) := by
  have hexact : s.advanced_length_base64 = 2 + 4 * ((s.length + 2) / 3) := by
    unfold sexpSimpleString.advanced_length_base64 uint32
    apply Nat.mod_eq_of_lt
    omega
  refine ⟨add_two_div_three_eq_ceil _, ?_, ?_, ?_, ?_, ?_, ?_, ?_, ?_⟩
  · rw [hexact, add_two_div_three_eq_ceil]
  all_goals
    intro hL
    rw [hexact, hL]

/-- Witness of C2: the string of the four octets 1, 2, 3, 4. -/
theorem advanced_length_base64_exact_witness :
    (sexpSimpleString.mk [1, 2, 3, 4]).length ≤ 3221225469
    ∧ (sexpSimpleString.mk [1, 2, 3, 4]).advanced_length_base64
        = 2 + 4 * ⌈(((sexpSimpleString.mk [1, 2, 3, 4]).length : ℕ) : ℚ) / 3⌉₊ :=
  ⟨by decide, (advanced_length_base64_exact (sexpSimpleString.mk [1, 2, 3, 4]) (by decide)).2.1⟩

/-- C3, as stated, fails: a string of 2147483647 octets has
`1 + 2 * L + 1 = 4294967296`, and `advanced_length_hexadecimal` returns 0. -/
theorem advanced_length_hexadecimal_wraps :
    (sexpSimpleString.mk (List.replicate 2147483647 0)).length = 2147483647
    ∧ (sexpSimpleString.mk (List.replicate 2147483647 0)).advanced_length_hexadecimal = 0
    ∧ (sexpSimpleString.mk (List.replicate 2147483647 0)).advanced_length_hexadecimal
        ≠ 1 + 2 * (sexpSimpleString.mk (List.replicate 2147483647 0)).length + 1 := by
  have hlen : (sexpSimpleString.mk (List.replicate 2147483647 0)).length = 2147483647 := by
    simp only [sexpSimpleString.length, List.length_replicate]
  have hval :
      (sexpSimpleString.mk (List.replicate 2147483647 0)).advanced_length_hexadecimal = 0 := by
    unfold sexpSimpleString.advanced_length_hexadecimal
    rw [hlen]
    unfold uint32
    norm_num
  refine ⟨hlen, hval, ?_⟩
  rw [hval, hlen]
  norm_num

/-- C3, amended: for every simple string of length `L ≤ 2147483646`, that is
with `1 + 2 * L + 1 < 2 ^ 32`, `advanced_length_hexadecimal` returns exactly
`1 + 2 * L + 1`; it returns 2, 4, 6, 8, 130, 132 and 2002 for `L` = 0, 1, 2, 3,
64, 65 and 1000. -/
theorem advanced_length_hexadecimal_exact (s : sexpSimpleString)
    (h : s.length ≤ 2147483646) :
    s.advanced_length_hexadecimal = 1 + 2 * s.length + 1
    ∧ (s.length = 0 → s.advanced_length_hexadecimal = 2)
    ∧ (s.length = 1 → s.advanced_length_hexadecimal = 4)
    ∧ (s.length = 2 → s.advanced_length_hexadecimal = 6)
    ∧ (s.length = 3 → s.advanced_length_hexadecimal = 8)
    ∧ (s.length = 64 → s.advanced_length_hexadecimal = 130)
    ∧ (s.length = 65 → s.advanced_length_hexadecimal = 132)
    ∧ (s.length = 1000 → s.advanced_length_hexadecimal = 2002) := by
  have hexact : s.advanced_length_hexadecimal = 1 + 2 * s.length + 1 := by
    unfold sexpSimpleString.advanced_length_hexadecimal uint32
    apply Nat.mod_eq_of_lt
    omega
  refine ⟨hexact, ?_, ?_, ?_, ?_, ?_, ?_, ?_⟩
  all_goals
    intro hL
    rw [hexact, hL]

/-- Witness of C3: the string of the four octets 1, 2, 3, 4. -/
theorem advanced_length_hexadecimal_exact_witness :
    (sexpSimpleString.mk [1, 2, 3, 4]).length ≤ 2147483646
    ∧ (sexpSimpleString.mk [1, 2, 3, 4]).advanced_length_hexadecimal
        = 1 + 2 * (sexpSimpleString.mk [1, 2, 3, 4]).length + 1 :=
  ⟨by decide,
    (advanced_length_hexadecimal_exact (sexpSimpleString.mk [1, 2, 3, 4]) (by decide)).1⟩

/-- C4, as stated, fails: a string of 4294967294 octets has
`1 + L + 1 = 4294967296`, and `advanced_length_quoted` returns 0. -/
theorem advanced_length_quoted_wraps :
    (sexpSimpleString.mk (List.replicate 4294967294 0)).length = 4294967294
    ∧ (sexpSimpleString.mk (List.replicate 4294967294 0)).advanced_length_quoted = 0
    ∧ (sexpSimpleString.mk (List.replicate 4294967294 0)).advanced_length_quoted
        ≠ 1 + (sexpSimpleString.mk (List.replicate 4294967294 0)).length + 1 := by
  have hlen : (sexpSimpleString.mk (List.replicate 4294967294 0)).length = 4294967294 := by
    simp only [sexpSimpleString.length, List.length_replicate]
  have hval : (sexpSimpleString.mk (List.replicate 4294967294 0)).advanced_length_quoted = 0 := by
    unfold sexpSimpleString.advanced_length_quoted
    rw [hlen]
    unfold uint32
    norm_num
  refine ⟨hlen, hval, ?_⟩
  rw [hval, hlen]
  norm_num

/-- C4, amended: for every simple string of length `L ≤ 4294967293`, that is
with `1 + L + 1 < 2 ^ 32`, `advanced_length_quoted` returns exactly `1 + L + 1`;
it returns 2, 3, 4, 5, 66, 67 and 1002 for `L` = 0, 1, 2, 3, 64, 65 and 1000. -/
theorem advanced_length_quoted_exact (s : sexpSimpleString) (h : s.length ≤ 4294967293) :
    s.advanced_length_quoted = 1 + s.length + 1
    ∧ (s.length = 0 → s.advanced_length_quoted = 2)
    ∧ (s.length = 1 → s.advanced_length_quoted = 3)
    ∧ (s.length = 2 → s.advanced_length_quoted = 4)
    ∧ (s.length = 3 → s.advanced_length_quoted = 5)
    ∧ (s.length = 64 → s.advanced_length_quoted = 66)
    ∧ (s.length = 65 → s.advanced_length_quoted = 67)
    ∧ (s.length = 1000 → s.advanced_length_quoted = 1002) := by
  have hexact : s.advanced_length_quoted = 1 + s.length + 1 := by
    unfold sexpSimpleString.advanced_length_quoted uint32
    apply Nat.mod_eq_of_lt
    omega
  refine ⟨hexact, ?_, ?_, ?_, ?_, ?_, ?_, ?_⟩
  all_goals
    intro hL
    rw [hexact, hL]

/-- Witness of C4: the string of the four octets 1, 2, 3, 4. -/
theorem advanced_length_quoted_exact_witness :
    (sexpSimpleString.mk [1, 2, 3, 4]).length ≤ 4294967293
    ∧ (sexpSimpleString.mk [1, 2, 3, 4]).advanced_length_quoted
        = 1 + (sexpSimpleString.mk [1, 2, 3, 4]).length + 1 :=
  ⟨by decide, (advanced_length_quoted_exact (sexpSimpleString.mk [1, 2, 3, 4]) (by decide)).1⟩

/-- C5, as stated, fails: for a string of 4294967296 octets
`advanced_length_token` returns 0. -/
theorem advanced_length_token_wraps :
    (sexpSimpleString.mk (List.replicate 4294967296 0)).length = 4294967296
    ∧ (sexpSimpleString.mk (List.replicate 4294967296 0)).advanced_length_token = 0
    ∧ (sexpSimpleString.mk (List.replicate 4294967296 0)).advanced_length_token
        ≠ (sexpSimpleString.mk (List.replicate 4294967296 0)).length := by
  have hlen : (sexpSimpleString.mk (List.replicate 4294967296 0)).length = 4294967296 := by
    simp only [sexpSimpleString.length, List.length_replicate]
  have hval : (sexpSimpleString.mk (List.replicate 4294967296 0)).advanced_length_token = 0 := by
    unfold sexpSimpleString.advanced_length_token
    rw [hlen]
    unfold uint32
    norm_num
  refine ⟨hlen, hval, ?_⟩
  rw [hval, hlen]
  norm_num

/-- C5, amended: for every simple string of length `L < 2 ^ 32`,
`advanced_length_token` returns exactly `L`. -/
theorem advanced_length_token_exact (s : sexpSimpleString) (h : s.length < 2 ^ 32) :
    s.advanced_length_token = s.length := by
  unfold sexpSimpleString.advanced_length_token uint32
  exact Nat.mod_eq_of_lt h

/-- Witness of C5: the string of the four octets 1, 2, 3, 4. -/
theorem advanced_length_token_exact_witness :
    (sexpSimpleString.mk [1, 2, 3, 4]).length < 2 ^ 32
    ∧ (sexpSimpleString.mk [1, 2, 3, 4]).advanced_length_token
        = (sexpSimpleString.mk [1, 2, 3, 4]).length :=
  ⟨by decide, advanced_length_token_exact (sexpSimpleString.mk [1, 2, 3, 4]) (by decide)⟩

/-- C6, as stated, fails: on a freshly default-constructed `sexpString`,
`get_string()` returns the null pointer. -/
theorem get_string_construct_absent :
    sexpString.construct.get_string = none
    ∧ ¬ (sexpString.construct.get_string.isSome = true) := by
  constructor
  · rfl
  · simp [sexpString.construct, sexpString.get_string]

/-- C6, amended: a default-constructed `sexpString` holds neither a data string
nor a presentation hint; once `set_string` has stored a present simple string,
`get_string()` returns that string, and it still does after any
`set_presentation_hint`. -/
theorem get_string_present_after_set_string (s : sexpString) (ss : sexpSimpleString)
    (ph : Option sexpSimpleString) :
    sexpString.construct.get_string = none
    ∧ sexpString.construct.get_presentation_hint = none
    ∧ (s.set_string (some ss)).2.get_string = some ss
    ∧ ((s.set_string (some ss)).2.set_presentation_hint ph).2.get_string = some ss :=
  ⟨rfl, rfl, rfl, rfl⟩

/-- C7: canonical printing of a simple string always uses the verbatim
length-prefixed form. Whatever the seven printing routines of
`sexpSimpleString` are, and for every simple string and every encoder state,
`sexpOutputStream::print_canonical(ss)` is `print_canonical_verbatim` applied to
the string and that encoder; the token, quoted, hexadecimal, base64, plain
verbatim and advanced printers have no part in the result. -/
theorem print_canonical_uses_verbatim
    (canonical_verbatim advanced token verbatim quoted hexadecimal base64 :
      sexpSimpleString → sexpOutputStream → sexpOutputStream)
    (p : SimpleStringPrinters) (os : sexpOutputStream) (ss : sexpSimpleString) :
    os.print_canonical p ss = p.print_canonical_verbatim ss os
    ∧ os.print_canonical
        ⟨canonical_verbatim, advanced, token, verbatim, quoted, hexadecimal, base64⟩ ss
      = canonical_verbatim ss os :=
  ⟨rfl, rfl⟩

/-- C8: character-table construction is idempotent. Whatever
`initialize_character_tables` does, constructing a `sexpCharDefs` when the flag
`initialized` is already true leaves every table and the flag as they were;
after any construction the flag is true; and two successive constructions leave
the same state as one. -/
theorem sexpCharDefs_construct_idempotent (init_tables : sexpCharDefs → sexpCharDefs)
    (st : sexpCharDefs) :
    sexpCharDefs.construct init_tables { st with initialized := true }
      = { st with initialized := true }
    ∧ (sexpCharDefs.construct init_tables st).initialized = true
    ∧ sexpCharDefs.construct init_tables (sexpCharDefs.construct init_tables st)
      = sexpCharDefs.construct init_tables st := by
  have hflag : (sexpCharDefs.construct init_tables st).initialized = true := by
    unfold sexpCharDefs.construct
    cases h : st.initialized <;> simp [h]
  refine ⟨by simp [sexpCharDefs.construct], hflag, ?_⟩
  generalize sexpCharDefs.construct init_tables st = st1 at hflag ⊢
  simp [sexpCharDefs.construct, hflag]

/-- C9: for every simple string and every `int c`, `append(c)` yields the string
followed by exactly one octet, whose value is `c mod 256`, which is `c & 0xFF`:
the length grows by 1 and the octets already there are unchanged. Appending
`-1` appends 255, and appending 256 appends 0. -/
theorem append_one_octet (s : sexpSimpleString) (c : Int) :
    (s.append c).data = s.data ++ [(c % 256).toNat]
    ∧ (c % 256).toNat < 256
    ∧ ((c % 256).toNat : Int) = Int.land c 0xFF
    ∧ (s.append c).length = s.length + 1
    ∧ (s.append c).data.take s.length = s.data
    ∧ (s.append (-1)).data = s.data ++ [255]
    ∧ (s.append 256).data = s.data ++ [0] := by
  have hnonneg : 0 ≤ c % 256 := Int.emod_nonneg c (by norm_num)
  have hlt : c % 256 < 256 := Int.emod_lt_of_pos c (by norm_num)
  have hnat : (c % 256).toNat < 256 := by omega
  have hdata : ∀ d : Int, (s.append d).data = s.data ++ [(d % 256).toNat] := by
    intro d
    have hd : (d % 256).toNat < 256 := by
      have h1 : 0 ≤ d % 256 := Int.emod_nonneg d (by norm_num)
      have h2 : d % 256 < 256 := Int.emod_lt_of_pos d (by norm_num)
      omega
    simp only [sexpSimpleString.append, land_0xFF, Nat.mod_eq_of_lt hd]
  refine ⟨hdata c, hnat, ?_, ?_, ?_, ?_, ?_⟩
  · rw [land_0xFF, Int.toNat_of_nonneg hnonneg]
  · simp [sexpSimpleString.length, hdata c]
  · simp [sexpSimpleString.length, hdata c]
  · rw [hdata]; rfl
  · rw [hdata]; rfl

/-- C10: the default maximum line length of the encoder is 75 columns. The
constant `default_line_length` equals 75, and `max_column` takes its default
from it: whatever the constructor gives the other members, a freshly
constructed encoder has `max_column = default_line_length`, so
`get_max_column()` returns 75. Setting the maximum column from the constant
gives 75 as well. -/
theorem default_line_length_eq (os : sexpOutputStream) (o : List Nat)
    (base64_count byte_size bits n_bits : Nat) (mode : sexpPrintMode) (column : Nat) :
    sexpOutputStream.default_line_length = 75
    ∧ (sexpOutputStream.construct o base64_count byte_size bits n_bits mode column).max_column
        = sexpOutputStream.default_line_length
    ∧ (sexpOutputStream.construct o base64_count byte_size bits n_bits mode
        column).get_max_column = 75
    ∧ (os.set_max_column sexpOutputStream.default_line_length).1 = 75
    ∧ (os.set_max_column sexpOutputStream.default_line_length).2.get_max_column = 75 :=
  ⟨rfl, rfl, rfl, rfl, rfl⟩

/-- C11: indentation is balanced. For every encoder state, whose `indent` is a
`uint32_t`, `inc_indent` followed by `dec_indent` restores the indentation
depth, and indeed the whole state; at `indent = 2 ^ 32 - 1` the increment wraps
to 0 and the decrement wraps back. Neither operation changes `column`,
`max_column`, the print mode, the byte size, the bit accumulator (`bits`,
`n_bits`), `base64_count` or the bytes written. -/
theorem inc_indent_dec_indent_balanced (os : sexpOutputStream) (h : os.indent < 2 ^ 32) :
    os.inc_indent.dec_indent.indent = os.indent
    ∧ os.inc_indent.dec_indent = os
    ∧ (os.indent = 2 ^ 32 - 1 →
        os.inc_indent.indent = 0 ∧ os.inc_indent.dec_indent.indent = 2 ^ 32 - 1)
    ∧ (os.inc_indent.column = os.column ∧ os.inc_indent.max_column = os.max_column
        ∧ os.inc_indent.mode = os.mode ∧ os.inc_indent.byte_size = os.byte_size
        ∧ os.inc_indent.bits = os.bits ∧ os.inc_indent.n_bits = os.n_bits
        ∧ os.inc_indent.base64_count = os.base64_count
        ∧ os.inc_indent.output_file = os.output_file)
    ∧ (os.dec_indent.column = os.column ∧ os.dec_indent.max_column = os.max_column
        ∧ os.dec_indent.mode = os.mode ∧ os.dec_indent.byte_size = os.byte_size
        ∧ os.dec_indent.bits = os.bits ∧ os.dec_indent.n_bits = os.n_bits
        ∧ os.dec_indent.base64_count = os.base64_count
        ∧ os.dec_indent.output_file = os.output_file) := by
  have hindent : os.inc_indent.dec_indent.indent = os.indent := by
    simp only [sexpOutputStream.inc_indent, sexpOutputStream.dec_indent, uint32]
    omega
  refine ⟨hindent, ?_, ?_, ?_, ?_⟩
  · cases os
    simp only [sexpOutputStream.inc_indent, sexpOutputStream.dec_indent, uint32] at hindent ⊢
    simp only [sexpOutputStream.mk.injEq, true_and]
    exact hindent
  · intro hmax
    refine ⟨?_, by rw [hindent, hmax]⟩
    simp only [sexpOutputStream.inc_indent, uint32, hmax]
    norm_num
  · unfold sexpOutputStream.inc_indent
    exact ⟨rfl, rfl, rfl, rfl, rfl, rfl, rfl, rfl⟩
  · unfold sexpOutputStream.dec_indent
    exact ⟨rfl, rfl, rfl, rfl, rfl, rfl, rfl, rfl⟩

/-- Witness of C11: an encoder at the wrap-around boundary, `indent = 2 ^ 32 - 1`. -/
theorem inc_indent_dec_indent_balanced_witness :
    (sexpOutputStream.mk [] 0 8 0 0 sexpPrintMode.canonical 0 75 4294967295).indent < 2 ^ 32
    ∧ (sexpOutputStream.mk [] 0 8 0 0 sexpPrintMode.canonical 0 75
        4294967295).inc_indent.dec_indent.indent = 4294967295 :=
  ⟨by decide,
    (inc_indent_dec_indent_balanced
      (sexpOutputStream.mk [] 0 8 0 0 sexpPrintMode.canonical 0 75 4294967295) (by decide)).1⟩

/-- C12: the two fields of a string node are set independently. After
`set_string(ss)`, `get_string()` returns `ss` and `get_presentation_hint()`
returns what it returned before; after `set_presentation_hint(ph)`,
`get_presentation_hint()` returns `ph` and `get_string()` is unchanged; each
setter returns the value it stored. The values range over all pointers, the
null pointer included. -/
theorem set_string_set_presentation_hint_independent (s : sexpString)
    (ss ph : Option sexpSimpleString) :
    (s.set_string ss).2.get_string = ss
    ∧ (s.set_string ss).2.get_presentation_hint = s.get_presentation_hint
    ∧ (s.set_string ss).1 = ss
    ∧ (s.set_presentation_hint ph).2.get_presentation_hint = ph
    ∧ (s.set_presentation_hint ph).2.get_string = s.get_string
    ∧ (s.set_presentation_hint ph).1 = ph :=
  ⟨rfl, rfl, rfl, rfl, rfl, rfl⟩

/-- C13, as stated, fails: at length 4, which is at least 3, the base64 and the
hexadecimal lengths are both 10, so base64 is not strictly shorter. -/
theorem advanced_length_base64_eq_hexadecimal_at_four :
    3 ≤ (sexpSimpleString.mk [1, 2, 3, 4]).length
    ∧ 2 * (sexpSimpleString.mk [1, 2, 3, 4]).length + 2 < 2 ^ 32
    ∧ (sexpSimpleString.mk [1, 2, 3, 4]).advanced_length_base64 = 10
    ∧ (sexpSimpleString.mk [1, 2, 3, 4]).advanced_length_hexadecimal = 10
    ∧ ¬ ((sexpSimpleString.mk [1, 2, 3, 4]).advanced_length_base64
          < (sexpSimpleString.mk [1, 2, 3, 4]).advanced_length_hexadecimal) := by
  decide

/-- C13, amended: for every string length `L ≥ 2` with `2 * L + 2 < 2 ^ 32`,
`advanced_length_base64 ≤ advanced_length_hexadecimal`, and strictly less for
every `L ≥ 3` other than 4; the only lengths at which base64 is not strictly
shorter are `L = 0` (both 2), `L = 1` (hexadecimal 4, base64 6), `L = 2` (both
6) and `L = 4` (both 10). -/
theorem advanced_length_base64_le_hexadecimal (s : sexpSimpleString)
    (h : 2 * s.length + 2 < 2 ^ 32) :
    (2 ≤ s.length → s.advanced_length_base64 ≤ s.advanced_length_hexadecimal)
    ∧ (3 ≤ s.length → s.length ≠ 4 →
        s.advanced_length_base64 < s.advanced_length_hexadecimal)
    ∧ (¬ (s.advanced_length_base64 < s.advanced_length_hexadecimal)
        ↔ s.length = 0 ∨ s.length = 1 ∨ s.length = 2 ∨ s.length = 4)
    ∧ (s.length = 0 → s.advanced_length_base64 = 2 ∧ s.advanced_length_hexadecimal = 2)
    ∧ (s.length = 1 → s.advanced_length_base64 = 6 ∧ s.advanced_length_hexadecimal = 4)
    ∧ (s.length = 2 → s.advanced_length_base64 = 6 ∧ s.advanced_length_hexadecimal = 6)
    ∧ (s.length = 4 → s.advanced_length_base64 = 10 ∧ s.advanced_length_hexadecimal = 10) := by
  have hb : s.advanced_length_base64 = 2 + 4 * ((s.length + 2) / 3) := by
    unfold sexpSimpleString.advanced_length_base64 uint32
    apply Nat.mod_eq_of_lt
    omega
  have hx : s.advanced_length_hexadecimal = 1 + 2 * s.length + 1 := by
    unfold sexpSimpleString.advanced_length_hexadecimal uint32
    apply Nat.mod_eq_of_lt
    omega
  rw [hb, hx]
  refine ⟨?_, ?_, ?_, ?_, ?_, ?_, ?_⟩
  all_goals omega

/-- Witness of C13: the string of the five octets 1, 2, 3, 4, 5, whose base64
length 10 is below its hexadecimal length 12. -/
theorem advanced_length_base64_le_hexadecimal_witness :
    2 * (sexpSimpleString.mk [1, 2, 3, 4, 5]).length + 2 < 2 ^ 32
    ∧ (sexpSimpleString.mk [1, 2, 3, 4, 5]).advanced_length_base64
        < (sexpSimpleString.mk [1, 2, 3, 4, 5]).advanced_length_hexadecimal :=
  ⟨by decide,
    (advanced_length_base64_le_hexadecimal (sexpSimpleString.mk [1, 2, 3, 4, 5])
      (by decide)).2.1 (by decide) (by decide)⟩

/-- C14, as stated, fails: for a string of 3221225470 octets
`advanced_length_base64` returns 2, so the body length `n` is 0, and no digit
holds the `8 * L` payload bits. -/
theorem advanced_length_base64_body_wraps :
    (sexpSimpleString.mk (List.replicate 3221225470 0)).length = 3221225470
    ∧ (sexpSimpleString.mk (List.replicate 3221225470 0)).advanced_length_base64 - 2 = 0
    ∧ ¬ (6 * ((sexpSimpleString.mk (List.replicate 3221225470 0)).advanced_length_base64 - 2)
          ≥ 8 * (sexpSimpleString.mk (List.replicate 3221225470 0)).length) := by
  have hlen : (sexpSimpleString.mk (List.replicate 3221225470 0)).length = 3221225470 := by
    simp only [sexpSimpleString.length, List.length_replicate]
  have hval : (sexpSimpleString.mk (List.replicate 3221225470 0)).advanced_length_base64 = 2 := by
    unfold sexpSimpleString.advanced_length_base64
    rw [hlen]
    unfold uint32
    norm_num
  refine ⟨hlen, ?_, ?_⟩
  · rw [hval]
  · rw [hval, hlen]
    norm_num

/-- C14, amended: for every string length `L`, `advanced_length_base64 - 2` is a
multiple of 4; for every `L ≤ 3221225469`, that is with
`2 + 4 * ceil(L / 3) < 2 ^ 32`, it is the least multiple of 4, `n`, such that
`n` six-bit digits hold all `8 * L` payload bits: `6 * n ≥ 8 * L`,
`6 * (n - 4) < 8 * L` whenever `n > 0`, and every multiple `m` of 4 with
`6 * m ≥ 8 * L` is at least `n`. -/
theorem advanced_length_base64_body_least (s : sexpSimpleString) :
    4 ∣ (s.advanced_length_base64 - 2)
    ∧ (s.length ≤ 3221225469 →
        6 * (s.advanced_length_base64 - 2) ≥ 8 * s.length
        ∧ (s.advanced_length_base64 - 2 > 0 →
            6 * (s.advanced_length_base64 - 2 - 4) < 8 * s.length)
        ∧ ∀ m : Nat, 4 ∣ m → 6 * m ≥ 8 * s.length → s.advanced_length_base64 - 2 ≤ m) := by
  constructor
  · unfold sexpSimpleString.advanced_length_base64 uint32
    omega
  · intro h
    have hb : s.advanced_length_base64 = 2 + 4 * ((s.length + 2) / 3) := by
      unfold sexpSimpleString.advanced_length_base64 uint32
      apply Nat.mod_eq_of_lt
      omega
    rw [hb]
    refine ⟨by omega, by omega, ?_⟩
    intro m hm hle
    omega

/-- Witness of C14: the string of the four octets 1, 2, 3, 4, whose base64
body of 8 digits holds 48 bits, at least the 32 payload bits. -/
theorem advanced_length_base64_body_least_witness :
    (sexpSimpleString.mk [1, 2, 3, 4]).length ≤ 3221225469
    ∧ 6 * ((sexpSimpleString.mk [1, 2, 3, 4]).advanced_length_base64 - 2)
        ≥ 8 * (sexpSimpleString.mk [1, 2, 3, 4]).length :=
  ⟨by decide,
    ((advanced_length_base64_body_least (sexpSimpleString.mk [1, 2, 3, 4])).2 (by decide)).1⟩

/-- C15: the length formulas respect the preference order token, quoted,
hexadecimal. For every string length `L` with `2 * L + 2 < 2 ^ 32`,
`advanced_length_quoted = advanced_length_token + 2` and
`advanced_length_hexadecimal = advanced_length_quoted + L`, hence
token < quoted ≤ hexadecimal, with quoted = hexadecimal only for the empty
string. -/
theorem advanced_length_preference_order (s : sexpSimpleString)
    (h : 2 * s.length + 2 < 2 ^ 32) :
    s.advanced_length_quoted = s.advanced_length_token + 2
    ∧ s.advanced_length_hexadecimal = s.advanced_length_quoted + s.length
    ∧ s.advanced_length_token < s.advanced_length_quoted
    ∧ s.advanced_length_quoted ≤ s.advanced_length_hexadecimal
    ∧ (s.advanced_length_quoted = s.advanced_length_hexadecimal ↔ s.length = 0) := by
  have ht : s.advanced_length_token = s.length := by
    unfold sexpSimpleString.advanced_length_token uint32
    apply Nat.mod_eq_of_lt
    omega
  have hq : s.advanced_length_quoted = 1 + s.length + 1 := by
    unfold sexpSimpleString.advanced_length_quoted uint32
    apply Nat.mod_eq_of_lt
    omega
  have hx : s.advanced_length_hexadecimal = 1 + 2 * s.length + 1 := by
    unfold sexpSimpleString.advanced_length_hexadecimal uint32
    apply Nat.mod_eq_of_lt
    omega
  rw [ht, hq, hx]
  refine ⟨?_, ?_, ?_, ?_, ?_⟩
  all_goals omega

/-- Witness of C15: the string of the four octets 1, 2, 3, 4. -/
theorem advanced_length_preference_order_witness :
    2 * (sexpSimpleString.mk [1, 2, 3, 4]).length + 2 < 2 ^ 32
    ∧ (sexpSimpleString.mk [1, 2, 3, 4]).advanced_length_token
        < (sexpSimpleString.mk [1, 2, 3, 4]).advanced_length_quoted
    ∧ (sexpSimpleString.mk [1, 2, 3, 4]).advanced_length_quoted
        ≤ (sexpSimpleString.mk [1, 2, 3, 4]).advanced_length_hexadecimal :=
  ⟨by decide,
    (advanced_length_preference_order (sexpSimpleString.mk [1, 2, 3, 4]) (by decide)).2.2.1,
    (advanced_length_preference_order (sexpSimpleString.mk [1, 2, 3, 4]) (by decide)).2.2.2.1⟩

/-- C16: the printed-length results are 32-bit unsigned values that wrap. For a
string of length `L`, `advanced_length_hexadecimal` returns
`(2 * L + 2) mod 2 ^ 32`, a value below `2 ^ 32`, which equals the exact
printed length `2 * L + 2` if and only if `L ≤ 2 ^ 31 - 2`; at
`L = 2 ^ 31 - 1` it returns 0. -/
theorem advanced_length_hexadecimal_mod (s : sexpSimpleString) :
    s.advanced_length_hexadecimal = (2 * s.length + 2) % 2 ^ 32
    ∧ s.advanced_length_hexadecimal < 2 ^ 32
    ∧ (s.advanced_length_hexadecimal = 2 * s.length + 2 ↔ s.length ≤ 2 ^ 31 - 2)
    ∧ (s.length = 2 ^ 31 - 1 → s.advanced_length_hexadecimal = 0) := by
  have hx : s.advanced_length_hexadecimal = (2 * s.length + 2) % 2 ^ 32 := by
    unfold sexpSimpleString.advanced_length_hexadecimal uint32
    congr 1
    omega
  rw [hx]
  refine ⟨rfl, ?_, ?_, ?_⟩
  all_goals omega

/-- Witness of C16: a string of `2 ^ 31 - 1` octets, for which
`advanced_length_hexadecimal` returns 0. -/
theorem advanced_length_hexadecimal_mod_witness :
    (sexpSimpleString.mk (List.replicate 2147483647 0)).length = 2 ^ 31 - 1
    ∧ (sexpSimpleString.mk (List.replicate 2147483647 0)).advanced_length_hexadecimal = 0 :=
  have hlen : (sexpSimpleString.mk (List.replicate 2147483647 0)).length = 2 ^ 31 - 1 :=
    List.length_replicate 2147483647 0
  ⟨hlen,
    (advanced_length_hexadecimal_mod
      (sexpSimpleString.mk (List.replicate 2147483647 0))).2.2.2 hlen⟩

end sexp
